import Mathlib

/-!
Verification development for the EasyPM backend's activity-log subsystem,
reporting aggregator and their route-level authorization.

The definitions below are a shallow embedding of the JavaScript source:
  - projectLogsController (createProjectLog, getProjectLogs, getAllProjectLogs),
  - projectsController (createProject, updateProject, deleteProject),
  - tasksController (createTask, updateTask, deleteTask, addComment),
  - reportsController (getProjectReport),
  - the express routes for logs and reports together with authMiddleware and
    roleMiddleware.

Object ids are Nat, timestamps are Nat, money amounts are Rat.  The document
store is a quadruple of association lists.  Each mutation handler takes an
`ok : Bool` flag modelling whether the underlying log save succeeds
(`createProjectLog` catches a failed save and swallows it, which the `ok =
false` branch reproduces), a clock value `now`, and the authenticated caller,
and returns the HTTP status code, the updated store, and the trace of the
store operations it attempted, in source order.
-/

namespace EasyPM

/-- JSON-like scalar values appearing inside log detail payloads. -/
inductive JVal where
  | str : String → JVal
  | num : Int → JVal
  | oid : Nat → JVal
  | null : JVal
deriving DecidableEq

/-- One entry of a `changes` map: field name, old value, new value. -/
abbrev Change := String × JVal × JVal

/-- Action-specific detail payloads, one variant per object shape that the
controllers pass to createProjectLog. -/
inductive Details where
  | created (name description : String)
  | deleted (name : String) (id : Nat)
  | statusChange (src dst : String)
  | progressChange (src dst : Int)
  | teamChange (added removed : List Nat)
  | updated (changes : List Change)
  | taskCreated (taskId : Nat) (title : String) (assignee : Option Nat)
  | taskUpdated (taskId : Nat) (title : String) (changes : List Change)
  | taskStatusChanged (taskId : Nat) (title src dst : String)
  | taskReassigned (taskId : Nat) (title : String) (dst : Nat)
  | taskDeleted (taskId : Nat) (title : String)
  | commentAdded (taskId : Nat) (title : String)
deriving DecidableEq

/-- User document (models/User.js, the fields this subsystem reads). -/
structure User where
  name : String
  email : String
  role : String
  assignedProjects : List Nat
deriving DecidableEq

/-- Project document (models/Project.js). -/
structure Project where
  name : String
  description : String
  status : String
  progress : Int
  team : List Nat
  startDate : Nat
  deadline : Option Nat
  methodology : String
  budget : Option Rat
  createdBy : Nat
  lastUpdate : Nat
deriving DecidableEq

/-- Task document (models/Task.js; attachments are not read by any handler
modelled here). -/
structure Task where
  title : String
  description : String
  project : Nat
  status : String
  priority : String
  assignee : Option Nat
  dueDate : Option Nat
  storyPoints : Option Int
  phase : Option String
  comments : List (Nat × String)
  updatedAt : Nat
deriving DecidableEq

/-- ProjectLog document (models/ProjectLog.js). -/
structure LogEntry where
  project : Nat
  user : Option Nat
  action : String
  details : Details
  timestamp : Nat
deriving DecidableEq

/-- The document store: projects, tasks and users keyed by id, plus the
append-only activity log collection. -/
structure Store where
  projects : List (Nat × Project)
  tasks : List (Nat × Task)
  users : List (Nat × User)
  logs : List LogEntry
deriving DecidableEq

/-- The identity that authMiddleware attaches to the request. -/
structure AuthUser where
  id : Nat
  role : String
deriving DecidableEq

/-- findById on an association list. -/
def lookupP {α : Type} : List (Nat × α) → Nat → Option α
  | [], _ => none
  | (k, v) :: rest, i => if k = i then some v else lookupP rest i

/-- Saving an updated document back under its id. -/
def setP {α : Type} : List (Nat × α) → Nat → α → List (Nat × α)
  | [], _, _ => []
  | (k, w) :: rest, i, v => (if k = i then (k, v) else (k, w)) :: setP rest i v

/-- Deleting a document by id. -/
def removeP {α : Type} (l : List (Nat × α)) (i : Nat) : List (Nat × α) :=
  l.filter (fun kv => kv.1 ≠ i)

/-- The store operations a handler attempts, in order.  A logAppend event
records that createProjectLog was called (whether or not the save succeeds). -/
inductive Event where
  | saveProject (pid : Nat)
  | saveTask (tid : Nat)
  | deleteProjectE (pid : Nat)
  | deleteTaskE (tid : Nat)
  | deleteTasksOf (pid : Nat)
  | updateUsers
  | logAppend (action : String)
deriving DecidableEq

/-- createProjectLog (projectLogsController): build the entry with a
server-assigned timestamp and save it.  The source wraps the save in
try/catch, logs the error to the console and returns null, so a failed save
(`ok = false`) leaves the collection unchanged and no exception reaches the
caller. -/
def createProjectLog (ok : Bool) (now : Nat) (projectId : Nat) (userId : Option Nat)
    (action : String) (details : Details) (logs : List LogEntry) : List LogEntry :=
  if ok then logs ++ [⟨projectId, userId, action, details, now⟩] else logs

/-- The guard `updates.f && updates.f !== stored` for a string field: the
requested value must be truthy (present and nonempty) and different. -/
def strChange (upd : Option String) (old : String) : Option (String × String) :=
  match upd with
  | some v => if v ≠ "" ∧ v ≠ old then some (old, v) else none
  | none => none

/-- The guard `updates.f && updates.f !== stored` for a numeric field: the
requested value must be truthy (present and nonzero) and different. -/
def intChange (upd : Option Int) (old : Int) : Option (Int × Int) :=
  match upd with
  | some v => if v ≠ 0 ∧ v ≠ old then some (old, v) else none
  | none => none

/-- Request body for updateProject; a `none` field is absent from the JSON. -/
structure UpdateBody where
  name : Option String
  description : Option String
  status : Option String
  progress : Option Int
  team : Option (List Nat)
  startDate : Option Nat
  deadline : Option Nat
  methodology : Option String
  budget : Option Rat
deriving DecidableEq

/-- Object.assign(project, updates) followed by project.lastUpdate = Date.now():
every field present in the body overwrites the stored one, truthy or not. -/
def applyUpdates (now : Nat) (p : Project) (u : UpdateBody) : Project :=
  { name := u.name.getD p.name
    description := u.description.getD p.description
    status := u.status.getD p.status
    progress := u.progress.getD p.progress
    team := u.team.getD p.team
    startDate := u.startDate.getD p.startDate
    deadline := match u.deadline with | some d => some d | none => p.deadline
    methodology := u.methodology.getD p.methodology
    budget := match u.budget with | some b => some b | none => p.budget
    createdBy := p.createdBy
    lastUpdate := now }

/-- The pair of User.updateMany calls in updateProject: pull the project from
every user outside the new team, add it (as a set) for every user in it. -/
def updateAssignments (users : List (Nat × User)) (pid : Nat) (team : List Nat) :
    List (Nat × User) :=
  users.map (fun kv =>
    if kv.1 ∈ team then
      (kv.1, { kv.2 with assignedProjects :=
        if pid ∈ kv.2.assignedProjects then kv.2.assignedProjects
        else kv.2.assignedProjects ++ [pid] })
    else
      (kv.1, { kv.2 with assignedProjects :=
        kv.2.assignedProjects.filter (fun q => q ≠ pid) }))

/-- updateProject (projectsController).  Field-change guards run against the
stored document; the team difference, however, is computed only after
Object.assign and save have already replaced project.team with the requested
team, exactly as in the source. -/
def updateProject (ok : Bool) (now : Nat) (u : AuthUser) (pid : Nat)
    (updates : UpdateBody) (s : Store) : Nat × Store × List Event :=
  match lookupP s.projects pid with
  | none => (404, s, [])
  | some project =>
    let nmCh := strChange updates.name project.name
    let dsCh := strChange updates.description project.description
    let stCh := strChange updates.status project.status
    let prCh := intChange updates.progress project.progress
    let changes : List Change :=
      (match nmCh with | some c => [("name", JVal.str c.1, JVal.str c.2)] | none => []) ++
      (match dsCh with | some c => [("description", JVal.str c.1, JVal.str c.2)] | none => []) ++
      (match stCh with | some c => [("status", JVal.str c.1, JVal.str c.2)] | none => []) ++
      (match prCh with | some c => [("progress", JVal.num c.1, JVal.num c.2)] | none => [])
    let logs1 := match stCh with
      | some c => createProjectLog ok now pid (some u.id) "Status Changed"
          (Details.statusChange c.1 c.2) s.logs
      | none => s.logs
    let logs2 := match prCh with
      | some c => createProjectLog ok now pid (some u.id) "Progress Updated"
          (Details.progressChange c.1 c.2) logs1
      | none => logs1
    let project2 := applyUpdates now project updates
    let projects2 := setP s.projects pid project2
    let users3 := match updates.team with
      | some newTeam => updateAssignments s.users pid newTeam
      | none => s.users
    let logs3 := match updates.team with
      | some newTeam =>
        let added := newTeam.filter (fun i => i ∉ project2.team)
        let removed := project2.team.filter (fun i => i ∉ newTeam)
        if added ≠ [] ∨ removed ≠ [] then
          createProjectLog ok now pid (some u.id) "Team Changed"
            (Details.teamChange added removed) logs2
        else logs2
      | none => logs2
    let logs4 := if changes ≠ [] then
        createProjectLog ok now pid (some u.id) "Updated" (Details.updated changes) logs3
      else logs3
    let tr : List Event :=
      (match stCh with | some _ => [Event.logAppend "Status Changed"] | none => []) ++
      (match prCh with | some _ => [Event.logAppend "Progress Updated"] | none => []) ++
      [Event.saveProject pid] ++
      (match updates.team with
        | some newTeam =>
          (if newTeam.filter (fun i => i ∉ project2.team) ≠ [] ∨
              project2.team.filter (fun i => i ∉ newTeam) ≠ [] then
            [Event.logAppend "Team Changed"] else []) ++ [Event.updateUsers]
        | none => []) ++
      (if changes ≠ [] then [Event.logAppend "Updated"] else [])
    (200, { projects := projects2, tasks := s.tasks, users := users3, logs := logs4 }, tr)

/-- Request body for createProject. -/
structure CreateBody where
  name : String
  description : String
  status : String
  progress : Int
  team : List Nat
  startDate : Nat
  deadline : Option Nat
  methodology : String
  budget : Option Rat
deriving DecidableEq

/-- The single User.updateMany ($addToSet) call in createProject. -/
def addAssignments (users : List (Nat × User)) (pid : Nat) (team : List Nat) :
    List (Nat × User) :=
  users.map (fun kv =>
    if kv.1 ∈ team then
      (kv.1, { kv.2 with assignedProjects :=
        if pid ∈ kv.2.assignedProjects then kv.2.assignedProjects
        else kv.2.assignedProjects ++ [pid] })
    else kv)

/-- createProject (projectsController). -/
def createProject (ok : Bool) (now : Nat) (u : AuthUser) (newId : Nat)
    (body : CreateBody) (s : Store) : Nat × Store × List Event :=
  let project : Project :=
    { name := body.name, description := body.description, status := body.status,
      progress := body.progress, team := body.team, startDate := body.startDate,
      deadline := body.deadline, methodology := body.methodology, budget := body.budget,
      createdBy := u.id, lastUpdate := now }
  let projects2 := s.projects ++ [(newId, project)]
  let users2 := if body.team ≠ [] then addAssignments s.users newId body.team else s.users
  let logs2 := createProjectLog ok now newId (some u.id) "Created"
    (Details.created project.name project.description) s.logs
  (201, { projects := projects2, tasks := s.tasks, users := users2, logs := logs2 },
    [Event.saveProject newId] ++ (if body.team ≠ [] then [Event.updateUsers] else []) ++
      [Event.logAppend "Created"])

/-- The User.updateMany ($pull) call in deleteProject. -/
def pullAssignments (users : List (Nat × User)) (pid : Nat) : List (Nat × User) :=
  users.map (fun kv =>
    (kv.1, { kv.2 with assignedProjects := kv.2.assignedProjects.filter (fun q => q ≠ pid) }))

/-- deleteProject (projectsController): the Deleted entry is appended before
the user unlinking, the task cascade and the project deletion. -/
def deleteProject (ok : Bool) (now : Nat) (u : AuthUser) (pid : Nat) (s : Store) :
    Nat × Store × List Event :=
  match lookupP s.projects pid with
  | none => (404, s, [])
  | some project =>
    let logs2 := createProjectLog ok now pid (some u.id) "Deleted"
      (Details.deleted project.name pid) s.logs
    let users2 := pullAssignments s.users pid
    let tasks2 := s.tasks.filter (fun kv => kv.2.project ≠ pid)
    let projects2 := removeP s.projects pid
    (204, { projects := projects2, tasks := tasks2, users := users2, logs := logs2 },
      [Event.logAppend "Deleted", Event.updateUsers, Event.deleteTasksOf pid,
        Event.deleteProjectE pid])

/-- Request body for createTask. -/
structure TaskBody where
  title : String
  description : String
  status : String
  priority : String
  assignee : Option Nat
  dueDate : Option Nat
  storyPoints : Option Int
  phase : Option String
deriving DecidableEq

/-- createTask (tasksController). -/
def createTask (ok : Bool) (now : Nat) (u : AuthUser) (pid : Nat) (newId : Nat)
    (body : TaskBody) (s : Store) : Nat × Store × List Event :=
  match lookupP s.projects pid with
  | none => (404, s, [])
  | some project =>
    if u.role = "Administrator" ∨ u.role = "Project Manager" ∨ u.id ∈ project.team then
      let task : Task :=
        { title := body.title, description := body.description, project := pid,
          status := body.status, priority := body.priority, assignee := body.assignee,
          dueDate := body.dueDate, storyPoints := body.storyPoints, phase := body.phase,
          comments := [], updatedAt := now }
      let tasks2 := s.tasks ++ [(newId, task)]
      let logs2 := createProjectLog ok now pid (some u.id) "Task Created"
        (Details.taskCreated newId task.title task.assignee) s.logs
      (201, { projects := s.projects, tasks := tasks2, users := s.users, logs := logs2 },
        [Event.saveTask newId, Event.logAppend "Task Created"])
    else (403, s, [])

/-- Request body for updateTask. -/
structure TaskUpdateBody where
  title : Option String
  description : Option String
  status : Option String
  priority : Option String
  assignee : Option Nat
  dueDate : Option Nat
  storyPoints : Option Int
  phase : Option String
deriving DecidableEq

/-- Object.assign(task, updates) followed by task.updatedAt = Date.now(). -/
def applyTaskUpdates (now : Nat) (t : Task) (u : TaskUpdateBody) : Task :=
  { title := u.title.getD t.title
    description := u.description.getD t.description
    project := t.project
    status := u.status.getD t.status
    priority := u.priority.getD t.priority
    assignee := match u.assignee with | some a => some a | none => t.assignee
    dueDate := match u.dueDate with | some d => some d | none => t.dueDate
    storyPoints := match u.storyPoints with | some x => some x | none => t.storyPoints
    phase := match u.phase with | some x => some x | none => t.phase
    comments := t.comments
    updatedAt := now }

/-- updateTask (tasksController).  The Task Updated entry carries the title as
it reads after Object.assign; the two tracked-field entries carry the title
read before it. -/
def updateTask (ok : Bool) (now : Nat) (u : AuthUser) (tid : Nat)
    (updates : TaskUpdateBody) (s : Store) : Nat × Store × List Event :=
  match lookupP s.tasks tid with
  | none => (404, s, [])
  | some task =>
    if u.role = "Administrator" ∨ u.role = "Project Manager" ∨ task.assignee = some u.id then
      let stCh := strChange updates.status task.status
      let asCh : Option (Option Nat × Nat) :=
        match updates.assignee with
        | some a => if task.assignee ≠ some a then some (task.assignee, a) else none
        | none => none
      let changes : List Change :=
        (match stCh with | some c => [("status", JVal.str c.1, JVal.str c.2)] | none => []) ++
        (match asCh with
          | some c => [("assignee",
              match c.1 with | some b => JVal.oid b | none => JVal.null, JVal.oid c.2)]
          | none => [])
      let logs1 := match stCh with
        | some c => createProjectLog ok now task.project (some u.id) "Task Status Changed"
            (Details.taskStatusChanged tid task.title c.1 c.2) s.logs
        | none => s.logs
      let logs2 := match asCh with
        | some c => createProjectLog ok now task.project (some u.id) "Task Reassigned"
            (Details.taskReassigned tid task.title c.2) logs1
        | none => logs1
      let task2 := applyTaskUpdates now task updates
      let tasks2 := setP s.tasks tid task2
      let logs3 := if changes ≠ [] then
          createProjectLog ok now task.project (some u.id) "Task Updated"
            (Details.taskUpdated tid task2.title changes) logs2
        else logs2
      (200, { projects := s.projects, tasks := tasks2, users := s.users, logs := logs3 },
        (match stCh with | some _ => [Event.logAppend "Task Status Changed"] | none => []) ++
        (match asCh with | some _ => [Event.logAppend "Task Reassigned"] | none => []) ++
        [Event.saveTask tid] ++
        (if changes ≠ [] then [Event.logAppend "Task Updated"] else []))
    else (403, s, [])

/-- deleteTask (tasksController): the Task Deleted entry is appended before
the task is removed. -/
def deleteTask (ok : Bool) (now : Nat) (u : AuthUser) (tid : Nat) (s : Store) :
    Nat × Store × List Event :=
  match lookupP s.tasks tid with
  | none => (404, s, [])
  | some task =>
    let logs2 := createProjectLog ok now task.project (some u.id) "Task Deleted"
      (Details.taskDeleted tid task.title) s.logs
    let tasks2 := removeP s.tasks tid
    (204, { projects := s.projects, tasks := tasks2, users := s.users, logs := logs2 },
      [Event.logAppend "Task Deleted", Event.deleteTaskE tid])

/-- addComment (tasksController).  A dangling parent-project reference makes
the team check throw, which the catch turns into a 500. -/
def addComment (ok : Bool) (now : Nat) (u : AuthUser) (tid : Nat) (text : String)
    (s : Store) : Nat × Store × List Event :=
  match lookupP s.tasks tid with
  | none => (404, s, [])
  | some task =>
    match lookupP s.projects task.project with
    | none => (500, s, [])
    | some project =>
      if u.role = "Administrator" ∨ u.role = "Project Manager" ∨ u.id ∈ project.team then
        let task2 := { task with comments := task.comments ++ [(u.id, text)] }
        let tasks2 := setP s.tasks tid task2
        let logs2 := createProjectLog ok now task.project (some u.id) "Comment Added"
          (Details.commentAdded tid task.title) s.logs
        (201, { projects := s.projects, tasks := tasks2, users := s.users, logs := logs2 },
          [Event.saveTask tid, Event.logAppend "Comment Added"])
      else (403, s, [])

/-- A log entry as the query endpoints return it, with the acting user and the
project resolved by populate. -/
structure PopulatedLog where
  projectId : Nat
  projectName : Option String
  userName : Option String
  userEmail : Option String
  action : String
  details : Details
  timestamp : Nat
deriving DecidableEq

/-- populate('user', 'name email') and populate('project', 'name'). -/
def resolveLog (users : List (Nat × User)) (projects : List (Nat × Project))
    (e : LogEntry) : PopulatedLog :=
  { projectId := e.project
    projectName := (lookupP projects e.project).map (fun p => p.name)
    userName := e.user.bind (fun uid => (lookupP users uid).map (fun w => w.name))
    userEmail := e.user.bind (fun uid => (lookupP users uid).map (fun w => w.email))
    action := e.action
    details := e.details
    timestamp := e.timestamp }

/-- The sort key of `.sort(\x7b timestamp: -1 \x7d)`: newest first. -/
def tsDesc (a b : LogEntry) : Prop := b.timestamp ≤ a.timestamp

instance : DecidableRel tsDesc := fun a b => Nat.decLe b.timestamp a.timestamp

instance : IsTotal LogEntry tsDesc := ⟨fun a b => Nat.le_total b.timestamp a.timestamp⟩

instance : IsTrans LogEntry tsDesc := ⟨fun _ _ _ h1 h2 => Nat.le_trans h2 h1⟩

/-- getProjectLogs (projectLogsController): filter by project, sort newest
first, resolve the user and project references. -/
def getProjectLogs (pid : Nat) (s : Store) : Nat × List PopulatedLog :=
  (200, (List.insertionSort tsDesc (s.logs.filter (fun e => e.project = pid))).map
    (resolveLog s.users s.projects))

/-- getAllProjectLogs (projectLogsController). -/
def getAllProjectLogs (s : Store) : Nat × List PopulatedLog :=
  (200, (List.insertionSort tsDesc s.logs).map (resolveLog s.users s.projects))

/-- The route GET /projects/:projectId/logs: authMiddleware and a parameter
format check only; no role or team-membership gate before the controller. -/
def getProjectLogsRoute (caller : Option AuthUser) (pid : Nat) (s : Store) :
    Nat × List PopulatedLog :=
  match caller with
  | none => (401, [])
  | some _ => getProjectLogs pid s

/-- The route GET /logs: authMiddleware plus roleMiddleware(['Administrator']). -/
def getAllProjectLogsRoute (caller : Option AuthUser) (s : Store) :
    Nat × List PopulatedLog :=
  match caller with
  | none => (401, [])
  | some u => if u.role = "Administrator" then getAllProjectLogs s else (403, [])

/-- One row of the report's per-member statistics. -/
structure TeamStat where
  name : String
  email : String
  tasksCompleted : Nat
deriving DecidableEq

/-- The struct getProjectReport responds with. -/
structure Report where
  status : String
  deadline : Option Nat
  progress : Int
  budgetUsed : Rat
  budgetTotal : Rat
  todo : Nat
  inProgress : Nat
  completed : Nat
  team : List TeamStat
deriving DecidableEq

/-- Task.find(\x7b project: projectId \x7d). -/
def tasksOf (s : Store) (pid : Nat) : List Task :=
  (s.tasks.filter (fun kv => kv.2.project = pid)).map (fun kv => kv.2)

/-- getProjectReport (reportsController): budget.used is
`project.budget ? project.budget * 0.5 : 0`, the three buckets count the
statuses To Do / In Progress / Completed, and team rows count completed tasks
per member. -/
def getProjectReport (pid : Nat) (s : Store) : Nat × Option Report :=
  match lookupP s.projects pid with
  | none => (404, none)
  | some project =>
    let tasks := tasksOf s pid
    let teamStats := project.team.filterMap (fun uid =>
      (lookupP s.users uid).map (fun member =>
        { name := member.name, email := member.email,
          tasksCompleted := (s.tasks.filter (fun kv =>
            kv.2.project = pid ∧ kv.2.assignee = some uid ∧
              kv.2.status = "Completed")).length : TeamStat }))
    (200, some
      { status := project.status
        deadline := project.deadline
        progress := project.progress
        budgetUsed := match project.budget with
          | some b => if b ≠ 0 then b / 2 else 0
          | none => 0
        budgetTotal := match project.budget with
          | some b => if b ≠ 0 then b else 0
          | none => 0
        todo := tasks.countP (fun t => t.status = "To Do")
        inProgress := tasks.countP (fun t => t.status = "In Progress")
        completed := tasks.countP (fun t => t.status = "Completed")
        team := teamStats })

/-- The route GET /reports/:projectId: authMiddleware, then
roleMiddleware(['Administrator', 'Project Manager']), then the controller.
The store is returned unchanged: the handler only reads. -/
def getProjectReportRoute (caller : Option AuthUser) (pid : Nat) (s : Store) :
    Nat × Option Report × Store :=
  match caller with
  | none => (401, none, s)
  | some u =>
    if u.role = "Administrator" ∨ u.role = "Project Manager" then
      let r := getProjectReport pid s
      (r.1, r.2, s)
    else (403, none, s)

/-- The closed action enumeration of projectLogSchema. -/
def allowedActions : List String :=
  ["Created", "Updated", "Deleted", "Status Changed", "Team Changed", "Progress Updated",
   "Task Created", "Task Updated", "Task Status Changed", "Task Reassigned",
   "Task Deleted", "Comment Added"]

/-- Events that write to the projects, tasks or users collections. -/
def isCommitEvent : Event → Bool
  | Event.logAppend _ => false
  | _ => true

/-- Helper scanning a trace; the flag records whether a commit event has been
seen yet. -/
def appendsAfterCommitAux : Bool → List Event → Bool
  | _, [] => true
  | seen, Event.logAppend _ :: rest => seen && appendsAfterCommitAux seen rest
  | _, _ :: rest => appendsAfterCommitAux true rest

/-- Whether every log append in the trace happens after some entity-store
commit of the same request. -/
def appendsAfterCommit (tr : List Event) : Bool := appendsAfterCommitAux false tr

/-- The action of a log-append event. -/
def actionOf : Event → Option String
  | Event.logAppend a => some a
  | _ => none

/-! Concrete fixtures used by the counterexample and evaluation theorems. -/

/-- An update body with every field absent. -/
def emptyUpdate : UpdateBody := ⟨none, none, none, none, none, none, none, none, none⟩

/-- A task update body with every field absent. -/
def emptyTaskUpdate : TaskUpdateBody := ⟨none, none, none, none, none, none, none, none⟩

/-- A stored project: Active, progress 0, team [5]. -/
def projA : Project :=
  { name := "Alpha", description := "d", status := "Active", progress := 0, team := [5],
    startDate := 0, deadline := none, methodology := "None", budget := some 50000,
    createdBy := 9, lastUpdate := 0 }

/-- A stored task in project 1: To Do, assigned to user 5. -/
def taskA : Task :=
  { title := "T", description := "", project := 1, status := "To Do", priority := "Medium",
    assignee := some 5, dueDate := none, storyPoints := none, phase := none,
    comments := [], updatedAt := 0 }

/-- A store with project 1, task 2, users 5 (team member), 6 and 7
(collaborators outside the team), and an empty log collection. -/
def storeA : Store :=
  { projects := [(1, projA)]
    tasks := [(2, taskA)]
    users := [(5, ⟨"u5", "e5", "Collaborator", [1]⟩), (6, ⟨"u6", "e6", "Collaborator", []⟩),
      (7, ⟨"u7", "e7", "Collaborator", []⟩)]
    logs := [] }

/-- The administrator issuing the mutations in the concrete runs. -/
def adminU : AuthUser := ⟨9, "Administrator"⟩

/-- C1, evaluation at the failing input: a request changing only the status
(Active to On Hold) makes updateProject append two entries, Status Changed
and then Updated, because the catch-all guard fires on the changes map that
already holds the tracked status change; a task request changing only the
status likewise yields Task Status Changed and then Task Updated. -/
theorem c1_two_entries_for_single_tracked_change :
    ((updateProject true 7 adminU 1 { emptyUpdate with status := some "On Hold" }
      storeA).2.1.logs.map (fun e => e.action)) = ["Status Changed", "Updated"] ∧
    ((updateTask true 7 adminU 2 { emptyTaskUpdate with status := some "In Progress" }
      storeA).2.1.logs.map (fun e => e.action)) = ["Task Status Changed", "Task Updated"] := by
  constructor <;> rfl

/-- C5, evaluation at the failing input: a request replacing the stored team
[5] by [6] appends no log entry at all: the team difference is computed after
Object.assign has already overwritten project.team, so added and removed are
always empty; the team itself is still overwritten to [6]. -/
theorem c5_no_team_changed_entry :
    ((updateProject true 7 adminU 1 { emptyUpdate with team := some [6] }
      storeA).2.1.logs) = [] ∧
    ((lookupP (updateProject true 7 adminU 1 { emptyUpdate with team := some [6] }
      storeA).2.1.projects 1).map (fun p => p.team)) = some [6] := by
  constructor <;> rfl

/-- C4, counterexample: in the deleteProject run below, the Deleted log append
is attempted before any write to the entity store (the trace starts with the
append, then unlinks users, cascades the tasks and deletes the project), so it
is false that every mutation commits first and appends only afterwards. -/
theorem c4_counterexample_append_before_commit :
    appendsAfterCommit ((deleteProject true 7 adminU 1 storeA).2.2) = false := by
  rfl

/-- C3, counterexample: user 7 is a Collaborator and not a member of project
1's team [5], yet the logs route answers 200, not Forbidden. -/
theorem c3_counterexample_nonmember_not_forbidden :
    (getProjectLogsRoute (some ⟨7, "Collaborator"⟩) 1 storeA).1 = 200 ∧
    (getProjectLogsRoute (some ⟨7, "Collaborator"⟩) 1 storeA).1 ≠ 403 := by
  constructor <;> decide

/-- C3, amended: the project-logs route gates on authentication only; every
authenticated caller, team member or not, Collaborator or not, receives the
200 log listing, and only an unauthenticated caller is rejected with 401. -/
theorem c3_amended_auth_only_gate (u : AuthUser) (pid : Nat) (s : Store) :
    (getProjectLogsRoute (some u) pid s).1 = 200 ∧
    (getProjectLogsRoute none pid s).1 = 401 := by
  constructor <;> rfl

/-- Two handler results that agree on the response code, on every entity
collection (projects, tasks, users) and on the attempted-operation trace; only
the log collection may differ. -/
def unaffectedByLogFailure (r0 r1 : Nat × Store × List Event) : Prop :=
  r0.1 = r1.1 ∧ r0.2.1.projects = r1.2.1.projects ∧ r0.2.1.tasks = r1.2.1.tasks ∧
    r0.2.1.users = r1.2.1.users ∧ r0.2.2 = r1.2.2

lemma createProject_logFail (now : Nat) (u : AuthUser) (nid : Nat) (b : CreateBody)
    (s : Store) :
    unaffectedByLogFailure (createProject false now u nid b s)
      (createProject true now u nid b s) :=
  ⟨rfl, rfl, rfl, rfl, rfl⟩

lemma updateProject_logFail (now : Nat) (u : AuthUser) (pid : Nat) (b : UpdateBody)
    (s : Store) :
    unaffectedByLogFailure (updateProject false now u pid b s)
      (updateProject true now u pid b s) := by
  unfold unaffectedByLogFailure updateProject
  repeat' split
  all_goals exact ⟨rfl, rfl, rfl, rfl, rfl⟩

lemma deleteProject_logFail (now : Nat) (u : AuthUser) (pid : Nat) (s : Store) :
    unaffectedByLogFailure (deleteProject false now u pid s)
      (deleteProject true now u pid s) := by
  unfold unaffectedByLogFailure deleteProject
  repeat' split
  all_goals exact ⟨rfl, rfl, rfl, rfl, rfl⟩

lemma createTask_logFail (now : Nat) (u : AuthUser) (pid nid : Nat) (b : TaskBody)
    (s : Store) :
    unaffectedByLogFailure (createTask false now u pid nid b s)
      (createTask true now u pid nid b s) := by
  unfold unaffectedByLogFailure createTask
  repeat' split
  all_goals exact ⟨rfl, rfl, rfl, rfl, rfl⟩

lemma updateTask_logFail (now : Nat) (u : AuthUser) (tid : Nat) (b : TaskUpdateBody)
    (s : Store) :
    unaffectedByLogFailure (updateTask false now u tid b s)
      (updateTask true now u tid b s) := by
  unfold unaffectedByLogFailure updateTask
  repeat' split
  all_goals exact ⟨rfl, rfl, rfl, rfl, rfl⟩

lemma deleteTask_logFail (now : Nat) (u : AuthUser) (tid : Nat) (s : Store) :
    unaffectedByLogFailure (deleteTask false now u tid s)
      (deleteTask true now u tid s) := by
  unfold unaffectedByLogFailure deleteTask
  repeat' split
  all_goals exact ⟨rfl, rfl, rfl, rfl, rfl⟩

lemma addComment_logFail (now : Nat) (u : AuthUser) (tid : Nat) (txt : String)
    (s : Store) :
    unaffectedByLogFailure (addComment false now u tid txt s)
      (addComment true now u tid txt s) := by
  unfold unaffectedByLogFailure addComment
  repeat' split
  all_goals exact ⟨rfl, rfl, rfl, rfl, rfl⟩

/-- C2: for every mutation handler (project create, update, delete; task
create, update, delete; comment add), a failing activity-log append leaves the
response code, the projects, tasks and users collections, and the attempted
operation sequence exactly as in the run where the append succeeds: the
mutation is neither failed nor rolled back.  createProjectLog itself absorbs
the failure (its `ok = false` branch returns with the log collection
untouched), so no exception reaches the calling handler. -/
theorem c2_log_failure_isolated (now : Nat) (u : AuthUser) (pid tid nid : Nat)
    (pb : CreateBody) (ub : UpdateBody) (cb : TaskBody) (tb : TaskUpdateBody)
    (txt : String) (s : Store) :
    unaffectedByLogFailure (createProject false now u nid pb s)
        (createProject true now u nid pb s) ∧
      unaffectedByLogFailure (updateProject false now u pid ub s)
        (updateProject true now u pid ub s) ∧
      unaffectedByLogFailure (deleteProject false now u pid s)
        (deleteProject true now u pid s) ∧
      unaffectedByLogFailure (createTask false now u pid nid cb s)
        (createTask true now u pid nid cb s) ∧
      unaffectedByLogFailure (updateTask false now u tid tb s)
        (updateTask true now u tid tb s) ∧
      unaffectedByLogFailure (deleteTask false now u tid s)
        (deleteTask true now u tid s) ∧
      unaffectedByLogFailure (addComment false now u tid txt s)
        (addComment true now u tid txt s) :=
  ⟨createProject_logFail now u nid pb s, updateProject_logFail now u pid ub s,
    deleteProject_logFail now u pid s,
    createTask_logFail now u pid nid cb s,
    updateTask_logFail now u tid tb s, deleteTask_logFail now u tid s,
    addComment_logFail now u tid txt s⟩

/-- Every log entry in the handler result is either one that was already
stored or one whose action lies in the schema's closed enumeration. -/
def newLogsAllowed (old : List LogEntry) (r : Nat × Store × List Event) : Prop :=
  ∀ e ∈ r.2.1.logs, e ∈ old ∨ e.action ∈ allowedActions

lemma cpl_allowed {base : List LogEntry} {ok : Bool} {now pid : Nat} {uid : Option Nat}
    {a : String} {d : Details} {logs : List LogEntry} (ha : a ∈ allowedActions)
    (hl : ∀ e ∈ logs, e ∈ base ∨ e.action ∈ allowedActions) :
    ∀ e ∈ createProjectLog ok now pid uid a d logs, e ∈ base ∨ e.action ∈ allowedActions := by
  intro e he
  unfold createProjectLog at he
  split at he
  · rcases List.mem_append.mp he with h | h
    · exact hl e h
    · right
      rw [List.mem_singleton.mp h]
      exact ha
  · exact hl e he

lemma createProject_actions (ok : Bool) (now : Nat) (u : AuthUser) (nid : Nat)
    (b : CreateBody) (s : Store) : newLogsAllowed s.logs (createProject ok now u nid b s) := by
  unfold newLogsAllowed createProject
  repeat' first
    | exact fun e he => Or.inl he
    | refine cpl_allowed (by decide) ?_

lemma updateProject_actions (ok : Bool) (now : Nat) (u : AuthUser) (pid : Nat)
    (b : UpdateBody) (s : Store) : newLogsAllowed s.logs (updateProject ok now u pid b s) := by
  unfold newLogsAllowed updateProject
  dsimp only
  repeat' split
  all_goals repeat' first
    | exact fun e he => Or.inl he
    | refine cpl_allowed (by decide) ?_

lemma deleteProject_actions (ok : Bool) (now : Nat) (u : AuthUser) (pid : Nat)
    (s : Store) : newLogsAllowed s.logs (deleteProject ok now u pid s) := by
  unfold newLogsAllowed deleteProject
  dsimp only
  repeat' split
  all_goals repeat' first
    | exact fun e he => Or.inl he
    | refine cpl_allowed (by decide) ?_

lemma createTask_actions (ok : Bool) (now : Nat) (u : AuthUser) (pid nid : Nat)
    (b : TaskBody) (s : Store) : newLogsAllowed s.logs (createTask ok now u pid nid b s) := by
  unfold newLogsAllowed createTask
  dsimp only
  repeat' split
  all_goals repeat' first
    | exact fun e he => Or.inl he
    | refine cpl_allowed (by decide) ?_

lemma updateTask_actions (ok : Bool) (now : Nat) (u : AuthUser) (tid : Nat)
    (b : TaskUpdateBody) (s : Store) : newLogsAllowed s.logs (updateTask ok now u tid b s) := by
  unfold newLogsAllowed updateTask
  dsimp only
  repeat' split
  all_goals repeat' first
    | exact fun e he => Or.inl he
    | refine cpl_allowed (by decide) ?_

lemma deleteTask_actions (ok : Bool) (now : Nat) (u : AuthUser) (tid : Nat)
    (s : Store) : newLogsAllowed s.logs (deleteTask ok now u tid s) := by
  unfold newLogsAllowed deleteTask
  dsimp only
  repeat' split
  all_goals repeat' first
    | exact fun e he => Or.inl he
    | refine cpl_allowed (by decide) ?_

lemma addComment_actions (ok : Bool) (now : Nat) (u : AuthUser) (tid : Nat)
    (txt : String) (s : Store) : newLogsAllowed s.logs (addComment ok now u tid txt s) := by
  unfold newLogsAllowed addComment
  dsimp only
  repeat' split
  all_goals repeat' first
    | exact fun e he => Or.inl he
    | refine cpl_allowed (by decide) ?_

/-- C9: whatever any of the seven mutation handlers does, every activity-log
entry present afterwards either was present before or carries an action drawn
from the closed 12-value enumeration of projectLogSchema; no other action
string is ever written. -/
theorem c9_actions_closed_set (ok : Bool) (now : Nat) (u : AuthUser)
    (pid tid nid : Nat) (pb : CreateBody) (ub : UpdateBody) (cb : TaskBody)
    (tb : TaskUpdateBody) (txt : String) (s : Store) :
    newLogsAllowed s.logs (createProject ok now u nid pb s) ∧
      newLogsAllowed s.logs (updateProject ok now u pid ub s) ∧
      newLogsAllowed s.logs (deleteProject ok now u pid s) ∧
      newLogsAllowed s.logs (createTask ok now u pid nid cb s) ∧
      newLogsAllowed s.logs (updateTask ok now u tid tb s) ∧
      newLogsAllowed s.logs (deleteTask ok now u tid s) ∧
      newLogsAllowed s.logs (addComment ok now u tid txt s) :=
  ⟨createProject_actions ok now u nid pb s, updateProject_actions ok now u pid ub s,
    deleteProject_actions ok now u pid s, createTask_actions ok now u pid nid cb s,
    updateTask_actions ok now u tid tb s, deleteTask_actions ok now u tid s,
    addComment_actions ok now u tid txt s⟩

lemma lookupP_setP_self {α : Type} (l : List (Nat × α)) (i : Nat) (v : α) (x : α)
    (h : lookupP l i = some x) : lookupP (setP l i v) i = some v := by
  induction l with
  | nil => simp [lookupP] at h
  | cons kv rest ih =>
    obtain ⟨k, w⟩ := kv
    by_cases hk : k = i
    · subst hk
      simp only [setP]
      simp [lookupP]
    · have h2 : lookupP rest i = some x := by
        simp only [lookupP] at h
        rwa [if_neg hk] at h
      simp only [setP]
      rw [if_neg hk]
      simp only [lookupP]
      rw [if_neg hk]
      exact ih h2


lemma cpl_notPU {base : List LogEntry} {ok : Bool} {now pid : Nat} {uid : Option Nat}
    {a : String} {d : Details} {logs : List LogEntry} (ha : a ≠ "Progress Updated")
    (hl : ∀ e ∈ logs, e ∈ base ∨ e.action ≠ "Progress Updated") :
    ∀ e ∈ createProjectLog ok now pid uid a d logs,
      e ∈ base ∨ e.action ≠ "Progress Updated" := by
  intro e he
  unfold createProjectLog at he
  split at he
  · rcases List.mem_append.mp he with h | h
    · exact hl e h
    · right
      rw [List.mem_singleton.mp h]
      exact ha
  · exact hl e he

/-- C10: a request body that sets progress to 0 while the stored progress is
nonzero never produces a Progress Updated entry, because the change guard
tests the requested value for truthiness and 0 is falsy; yet Object.assign
still overwrites the stored progress, so the saved project has progress 0. -/
theorem c10_zero_progress_suppresses_entry (ok : Bool) (now : Nat) (u : AuthUser)
    (pid : Nat) (b : UpdateBody) (s : Store) (p : Project)
    (hp : lookupP s.projects pid = some p) (hb : b.progress = some 0)
    (hnz : p.progress ≠ 0) :
    (∀ e ∈ (updateProject ok now u pid b s).2.1.logs,
      e ∈ s.logs ∨ e.action ≠ "Progress Updated") ∧
    lookupP (updateProject ok now u pid b s).2.1.projects pid =
      some (applyUpdates now p b) ∧
    (applyUpdates now p b).progress = 0 := by
  have hpr : intChange b.progress p.progress = none := by
    rw [hb]
    simp [intChange]
  refine ⟨?_, ?_, ?_⟩
  · unfold updateProject
    simp only [hp, hpr]
    try dsimp only
    repeat' split
    all_goals repeat' first
      | exact fun e he => Or.inl he
      | refine cpl_notPU (by decide) ?_
  · unfold updateProject
    simp only [hp]
    exact lookupP_setP_self s.projects pid (applyUpdates now p b) p hp
  · simp [applyUpdates, hb]

/-- A stored project with nonzero progress, for the C10 witness. -/
def projB : Project :=
  { name := "Beta", description := "d", status := "Active", progress := 40, team := [5],
    startDate := 0, deadline := none, methodology := "None", budget := none,
    createdBy := 9, lastUpdate := 0 }

/-- A store holding projB under id 1. -/
def storeB : Store :=
  { projects := [(1, projB)], tasks := [], users := [], logs := [] }

/-- Witness for C10 at a concrete input: stored progress 40, request progress 0. -/
theorem c10_witness :
    (∀ e ∈ (updateProject true 7 adminU 1 { emptyUpdate with progress := some 0 }
        storeB).2.1.logs,
      e ∈ storeB.logs ∨ e.action ≠ "Progress Updated") ∧
    lookupP (updateProject true 7 adminU 1 { emptyUpdate with progress := some 0 }
        storeB).2.1.projects 1 =
      some (applyUpdates 7 projB { emptyUpdate with progress := some 0 }) ∧
    (applyUpdates 7 projB { emptyUpdate with progress := some 0 }).progress = 0 :=
  c10_zero_progress_suppresses_entry true 7 adminU 1
    { emptyUpdate with progress := some 0 } storeB projB (by rfl) (by rfl) (by decide)

/-- C6: the project-scoped log query returns a permutation of exactly the
stored entries whose project reference equals the requested id, resolved by
resolveLog to carry the acting user's name and email, and arranged so that
timestamps are descending along the returned list; every returned entry
references the requested project. -/
theorem c6_project_logs_filtered_sorted_resolved (pid : Nat) (s : Store) :
    List.Pairwise (fun a b : PopulatedLog => b.timestamp ≤ a.timestamp)
      ((getProjectLogs pid s).2) ∧
    ((getProjectLogs pid s).2).Perm
      ((s.logs.filter (fun e => e.project = pid)).map (resolveLog s.users s.projects)) ∧
    ∀ e ∈ (getProjectLogs pid s).2, e.projectId = pid := by
  refine ⟨?_, ?_, ?_⟩
  · exact List.pairwise_map.mpr
      (List.sorted_insertionSort tsDesc (s.logs.filter (fun e => e.project = pid)))
  · exact (List.perm_insertionSort tsDesc
      (s.logs.filter (fun e => e.project = pid))).map (resolveLog s.users s.projects)
  · intro e he
    rcases List.mem_map.mp he with ⟨l, hl, hfe⟩
    have hmem : l ∈ s.logs.filter (fun e => e.project = pid) :=
      (List.mem_insertionSort tsDesc).mp hl
    have hpid : l.project = pid := by
      have := (List.mem_filter.mp hmem).2
      simpa using this
    rw [← hfe]
    exact hpid

/-- The task statuses outside the report's three buckets. -/
def methodologyStatuses : List String :=
  ["Backlog", "Review", "Requirements", "Design", "Implementation", "Deployment"]

lemma bucket_sum_le (l : List Task) :
    l.countP (fun t => t.status = "To Do") + l.countP (fun t => t.status = "In Progress") +
      l.countP (fun t => t.status = "Completed") ≤ l.length := by
  induction l with
  | nil => simp
  | cons t rest ih =>
    simp only [List.countP_cons, List.length_cons]
    by_cases h1 : t.status = "To Do" <;> by_cases h2 : t.status = "In Progress" <;>
      by_cases h3 : t.status = "Completed" <;> simp_all <;> omega

lemma bucket_sum_lt (l : List Task) (t : Task) (ht : t ∈ l)
    (h1 : t.status ≠ "To Do") (h2 : t.status ≠ "In Progress")
    (h3 : t.status ≠ "Completed") :
    l.countP (fun x => x.status = "To Do") + l.countP (fun x => x.status = "In Progress") +
      l.countP (fun x => x.status = "Completed") < l.length := by
  induction l with
  | nil => cases ht
  | cons a rest ih =>
    rcases List.mem_cons.mp ht with rfl | hmem
    · have hle := bucket_sum_le rest
      simp only [List.countP_cons, List.length_cons]
      simp [h1, h2, h3]
      omega
    · have hlt := ih hmem
      simp only [List.countP_cons, List.length_cons]
      by_cases g1 : a.status = "To Do" <;> by_cases g2 : a.status = "In Progress" <;>
        by_cases g3 : a.status = "Completed" <;> simp_all <;> omega

/-- C7: for an existing project the report returns 200 with a struct whose
budget-used figure is exactly half the stated budget (0 when it is absent),
whose three buckets count exactly the tasks in status To Do, In Progress and
Completed, so that the bucket sum never exceeds the project's task count, and
falls strictly below it as soon as some task carries a methodology-specific
status. -/
theorem c7_report_budget_half_and_buckets (pid : Nat) (s : Store) (p : Project)
    (hp : lookupP s.projects pid = some p) :
    ∃ r : Report, (getProjectReport pid s).2 = some r ∧
      (∀ b, p.budget = some b → r.budgetUsed = b / 2) ∧
      (p.budget = none → r.budgetUsed = 0) ∧
      r.todo = (tasksOf s pid).countP (fun t => t.status = "To Do") ∧
      r.inProgress = (tasksOf s pid).countP (fun t => t.status = "In Progress") ∧
      r.completed = (tasksOf s pid).countP (fun t => t.status = "Completed") ∧
      r.todo + r.inProgress + r.completed ≤ (tasksOf s pid).length ∧
      (∀ t ∈ tasksOf s pid, t.status ∈ methodologyStatuses →
        r.todo + r.inProgress + r.completed < (tasksOf s pid).length) := by
  unfold getProjectReport
  simp only [hp]
  refine ⟨_, rfl, ?_, ?_, rfl, rfl, rfl, bucket_sum_le _, ?_⟩
  · intro b hb
    rw [hb]
    by_cases hb0 : b = 0
    · simp [hb0]
    · simp [hb0]
  · intro hb
    rw [hb]
  · intro t ht hms
    refine bucket_sum_lt _ t ht ?_ ?_ ?_ <;>
      · simp only [methodologyStatuses, List.mem_cons, List.not_mem_nil, or_false] at hms
        rcases hms with h | h | h | h | h | h <;> simp [h]

/-- C8: the report route leaves the store untouched, answers 200 only to an
authenticated Administrator or Project Manager, answers 404 to an authorized
caller when the project does not exist, and 200 when it does. -/
theorem c8_report_authz_notfound_readonly (caller : Option AuthUser) (pid : Nat)
    (s : Store) :
    (getProjectReportRoute caller pid s).2.2 = s ∧
    ((getProjectReportRoute caller pid s).1 = 200 →
      ∃ u, caller = some u ∧ (u.role = "Administrator" ∨ u.role = "Project Manager")) ∧
    (∀ u, caller = some u → (u.role = "Administrator" ∨ u.role = "Project Manager") →
      lookupP s.projects pid = none → (getProjectReportRoute caller pid s).1 = 404) ∧
    (∀ u p, caller = some u → (u.role = "Administrator" ∨ u.role = "Project Manager") →
      lookupP s.projects pid = some p → (getProjectReportRoute caller pid s).1 = 200) := by
  cases caller with
  | none =>
    refine ⟨rfl, ?_, ?_, ?_⟩
    · intro h
      simp [getProjectReportRoute] at h
    · intro u hu
      cases hu
    · intro u p hu
      cases hu
  | some u =>
    by_cases hr : u.role = "Administrator" ∨ u.role = "Project Manager"
    · refine ⟨?_, ?_, ?_, ?_⟩
      · simp [getProjectReportRoute, hr]
      · intro _
        exact ⟨u, rfl, hr⟩
      · intro u2 hu2 hrole hp
        injection hu2 with h
        subst h
        simp [getProjectReportRoute, hr, getProjectReport, hp]
      · intro u2 p hu2 hrole hp
        injection hu2 with h
        subst h
        simp [getProjectReportRoute, hr, getProjectReport, hp]
    · refine ⟨?_, ?_, ?_, ?_⟩
      · simp [getProjectReportRoute, hr]
      · intro h
        simp [getProjectReportRoute, hr] at h
      · intro u2 hu2 hrole hp
        injection hu2 with h
        subst h
        exact absurd hrole hr
      · intro u2 p hu2 hrole hp
        injection hu2 with h
        subst h
        exact absurd hrole hr

/-- Witness for C7 at a concrete store: project 1 with budget 50000 and its
stored task in status To Do. -/
theorem c7_witness :
    ∃ r : Report, (getProjectReport 1 storeA).2 = some r ∧
      (∀ b, projA.budget = some b → r.budgetUsed = b / 2) ∧
      (projA.budget = none → r.budgetUsed = 0) ∧
      r.todo = (tasksOf storeA 1).countP (fun t => t.status = "To Do") ∧
      r.inProgress = (tasksOf storeA 1).countP (fun t => t.status = "In Progress") ∧
      r.completed = (tasksOf storeA 1).countP (fun t => t.status = "Completed") ∧
      r.todo + r.inProgress + r.completed ≤ (tasksOf storeA 1).length ∧
      (∀ t ∈ tasksOf storeA 1, t.status ∈ methodologyStatuses →
        r.todo + r.inProgress + r.completed < (tasksOf storeA 1).length) :=
  c7_report_budget_half_and_buckets 1 storeA projA (by rfl)

/-- Witness for C8 at a concrete input: an Administrator reading project 1's
report gets 200 and the store is unchanged. -/
theorem c8_witness :
    (getProjectReportRoute (some adminU) 1 storeA).2.2 = storeA ∧
    (getProjectReportRoute (some adminU) 1 storeA).1 = 200 :=
  ⟨(c8_report_authz_notfound_readonly (some adminU) 1 storeA).1,
    (c8_report_authz_notfound_readonly (some adminU) 1 storeA).2.2.2 adminU projA rfl
      (Or.inl rfl) (by rfl)⟩

lemma updateProject_appends_nodup (ok : Bool) (now : Nat) (u : AuthUser) (pid : Nat)
    (b : UpdateBody) (s : Store) :
    ((updateProject ok now u pid b s).2.2.filterMap actionOf).Nodup := by
  unfold updateProject
  try dsimp only
  repeat' split
  all_goals simp [actionOf, List.filterMap_append]

lemma createTask_appends_nodup (ok : Bool) (now : Nat) (u : AuthUser) (pid nid : Nat)
    (b : TaskBody) (s : Store) :
    ((createTask ok now u pid nid b s).2.2.filterMap actionOf).Nodup := by
  unfold createTask
  try dsimp only
  repeat' split
  all_goals simp [actionOf, List.filterMap_append]

lemma updateTask_appends_nodup (ok : Bool) (now : Nat) (u : AuthUser) (tid : Nat)
    (b : TaskUpdateBody) (s : Store) :
    ((updateTask ok now u tid b s).2.2.filterMap actionOf).Nodup := by
  unfold updateTask
  try dsimp only
  repeat' split
  all_goals simp [actionOf, List.filterMap_append]

lemma addComment_appends_nodup (ok : Bool) (now : Nat) (u : AuthUser) (tid : Nat)
    (txt : String) (s : Store) :
    ((addComment ok now u tid txt s).2.2.filterMap actionOf).Nodup := by
  unfold addComment
  try dsimp only
  repeat' split
  all_goals simp [actionOf, List.filterMap_append]

/-- The changes map updateProject accumulates for the catch-all Updated entry
(the `changes` object of the source, as a function of body and stored
project). -/
def changesOf (b : UpdateBody) (p : Project) : List Change :=
  (match strChange b.name p.name with
    | some c => [("name", JVal.str c.1, JVal.str c.2)] | none => []) ++
  (match strChange b.description p.description with
    | some c => [("description", JVal.str c.1, JVal.str c.2)] | none => []) ++
  (match strChange b.status p.status with
    | some c => [("status", JVal.str c.1, JVal.str c.2)] | none => []) ++
  (match intChange b.progress p.progress with
    | some c => [("progress", JVal.num c.1, JVal.num c.2)] | none => [])

/-- The log appends updateProject attempts before its save: the tracked-field
entries Status Changed and Progress Updated. -/
def trackedAppends (b : UpdateBody) (p : Project) : List Event :=
  (match strChange b.status p.status with
    | some _ => [Event.logAppend "Status Changed"] | none => []) ++
  (match intChange b.progress p.progress with
    | some _ => [Event.logAppend "Progress Updated"] | none => [])

/-- The store operations updateProject performs after its save: the Team
Changed append and user updates when a team is in the body, then the catch-all
Updated append when the changes map is non-empty. -/
def postSaveEvents (now : Nat) (b : UpdateBody) (p : Project) : List Event :=
  (match b.team with
    | some newTeam =>
      (if newTeam.filter (fun i => i ∉ (applyUpdates now p b).team) ≠ [] ∨
          (applyUpdates now p b).team.filter (fun i => i ∉ newTeam) ≠ [] then
        [Event.logAppend "Team Changed"] else []) ++ [Event.updateUsers]
    | none => []) ++
  (if changesOf b p ≠ [] then [Event.logAppend "Updated"] else [])

lemma updateProject_trace_shape (ok : Bool) (now : Nat) (u : AuthUser) (pid : Nat)
    (b : UpdateBody) (s : Store) (p : Project) (hp : lookupP s.projects pid = some p) :
    (updateProject ok now u pid b s).2.2 =
      trackedAppends b p ++ [Event.saveProject pid] ++ postSaveEvents now b p := by
  unfold updateProject trackedAppends postSaveEvents changesOf
  simp only [hp]
  simp [List.append_assoc]

lemma trackedAppends_are_tracked (b : UpdateBody) (p : Project) :
    ∀ e ∈ trackedAppends b p,
      e = Event.logAppend "Status Changed" ∨ e = Event.logAppend "Progress Updated" := by
  unfold trackedAppends
  repeat' split
  all_goals intro e he
  all_goals simp_all

lemma postSaveEvents_not_tracked (now : Nat) (b : UpdateBody) (p : Project) :
    ∀ e ∈ postSaveEvents now b p,
      ¬(e = Event.logAppend "Status Changed" ∨ e = Event.logAppend "Progress Updated") := by
  unfold postSaveEvents
  repeat' split
  all_goals intro e he
  all_goals simp_all
  all_goals aesop

/-- C4, amended: every mutation attempts each log append at most once with no
retry — the exact traces of deleteProject, deleteTask and createProject hold a
single append each, and the append actions attempted by updateProject,
createTask, updateTask and addComment are pairwise distinct — but an append is
not always after the commit: the delete handlers append before any store
write, and updateProject's trace decomposes around its save so that every
event before the save is a tracked-field append (Status Changed or Progress
Updated) and no event after the save is one; createProject appends only after
its save. -/
theorem c4_amended_single_attempt_mixed_order (ok : Bool) (now : Nat) (u : AuthUser)
    (pid tid nid : Nat) (pb : CreateBody) (ub : UpdateBody) (cb : TaskBody)
    (tb : TaskUpdateBody) (txt : String) (s : Store) (p : Project) (t : Task)
    (hp : lookupP s.projects pid = some p) (ht : lookupP s.tasks tid = some t) :
    (deleteProject ok now u pid s).2.2 =
      [Event.logAppend "Deleted", Event.updateUsers, Event.deleteTasksOf pid,
        Event.deleteProjectE pid] ∧
    (deleteTask ok now u tid s).2.2 =
      [Event.logAppend "Task Deleted", Event.deleteTaskE tid] ∧
    (createProject ok now u nid pb s).2.2 =
      [Event.saveProject nid] ++ (if pb.team ≠ [] then [Event.updateUsers] else []) ++
        [Event.logAppend "Created"] ∧
    (updateProject ok now u pid ub s).2.2 =
      trackedAppends ub p ++ [Event.saveProject pid] ++ postSaveEvents now ub p ∧
    (∀ e ∈ trackedAppends ub p,
      e = Event.logAppend "Status Changed" ∨ e = Event.logAppend "Progress Updated") ∧
    (∀ e ∈ postSaveEvents now ub p,
      ¬(e = Event.logAppend "Status Changed" ∨ e = Event.logAppend "Progress Updated")) ∧
    ((updateProject ok now u pid ub s).2.2.filterMap actionOf).Nodup ∧
    ((createTask ok now u pid nid cb s).2.2.filterMap actionOf).Nodup ∧
    ((updateTask ok now u tid tb s).2.2.filterMap actionOf).Nodup ∧
    ((addComment ok now u tid txt s).2.2.filterMap actionOf).Nodup := by
  refine ⟨?_, ?_, rfl, updateProject_trace_shape ok now u pid ub s p hp,
    trackedAppends_are_tracked ub p, postSaveEvents_not_tracked now ub p,
    updateProject_appends_nodup ok now u pid ub s,
    createTask_appends_nodup ok now u pid nid cb s,
    updateTask_appends_nodup ok now u tid tb s,
    addComment_appends_nodup ok now u tid txt s⟩
  · unfold deleteProject
    rw [hp]
  · unfold deleteTask
    rw [ht]

/-- A creation body with an empty team, for the C4 witness. -/
def bodyC : CreateBody :=
  { name := "Gamma", description := "", status := "Active", progress := 0, team := [],
    startDate := 0, deadline := none, methodology := "None", budget := none }

/-- A task creation body, for the C4 witness. -/
def taskBodyC : TaskBody :=
  { title := "T2", description := "", status := "To Do", priority := "Low",
    assignee := none, dueDate := none, storyPoints := none, phase := none }

/-- Witness for the amended C4 at concrete inputs over storeA: the delete
trace, the update trace decomposition around its save, and distinct append
actions for updateTask and addComment. -/
theorem c4_witness :
    (deleteProject true 7 adminU 1 storeA).2.2 =
      [Event.logAppend "Deleted", Event.updateUsers, Event.deleteTasksOf 1,
        Event.deleteProjectE 1] ∧
    (updateProject true 7 adminU 1 emptyUpdate storeA).2.2 =
      trackedAppends emptyUpdate projA ++ [Event.saveProject 1] ++
        postSaveEvents 7 emptyUpdate projA ∧
    ((updateTask true 7 adminU 2 emptyTaskUpdate storeA).2.2.filterMap actionOf).Nodup ∧
    ((addComment true 7 adminU 2 "hey" storeA).2.2.filterMap actionOf).Nodup :=
  ⟨(c4_amended_single_attempt_mixed_order true 7 adminU 1 2 3 bodyC emptyUpdate taskBodyC
      emptyTaskUpdate "hey" storeA projA taskA (by rfl) (by rfl)).1,
    (c4_amended_single_attempt_mixed_order true 7 adminU 1 2 3 bodyC emptyUpdate taskBodyC
      emptyTaskUpdate "hey" storeA projA taskA (by rfl) (by rfl)).2.2.2.1,
    (c4_amended_single_attempt_mixed_order true 7 adminU 1 2 3 bodyC emptyUpdate taskBodyC
      emptyTaskUpdate "hey" storeA projA taskA (by rfl) (by rfl)).2.2.2.2.2.2.2.2.1,
    (c4_amended_single_attempt_mixed_order true 7 adminU 1 2 3 bodyC emptyUpdate taskBodyC
      emptyTaskUpdate "hey" storeA projA taskA (by rfl) (by rfl)).2.2.2.2.2.2.2.2.2⟩

end EasyPM
